import Mathlib

/-!
Verification development for the automaton-diagram editor of the ai-tutor-mvp
repository.  The definitions below are a shallow embedding of the
`AutomataCanvas` component (`src/app/page.tsx`): the draw-command interpreter
(the `drawCommands` effect), the dagre layout wrapper `getLayoutedElements`,
and the user-gesture handlers (`addState`, `onNodeClick` in its modes,
`onEdgeClick`, `addSelfLoop`, `clearCanvas`).

JavaScript strings are embedded as `String`, numbers used for ids/counters as
`Nat`, positions as `Int × Int`, optional/possibly-absent JSON fields as
`Option _` (JS truthiness of a string field: absent or `""` is falsy), and the
system clock `Date.now()` as an explicit `now : Nat` parameter.
-/

namespace AITutor

/-! ### Decimal rendering and the `/ai-(\d+)/` scan

The component builds ids with JS template literals (`` `ai-${n}` ``,
`` `state-${Date.now()}` ``) which render numbers in decimal, and recovers the
numeric suffix of AI-created ids with the unanchored regex `/ai-(\d+)/`
(first match, maximal digit run). -/

/-- Decimal digit characters, most significant first ('0' = code 48); the
first argument is recursion fuel, always called with enough of it. -/
def natCharsAux : Nat → Nat → List Char
  | 0, _ => []
  | fuel + 1, n =>
    if n < 10 then [Char.ofNat (48 + n)]
    else natCharsAux fuel (n / 10) ++ [Char.ofNat (48 + n % 10)]

/-- Decimal digit characters of `n`, most significant first. -/
def natChars (n : Nat) : List Char := natCharsAux (n + 1) n

theorem natCharsAux_congr :
    ∀ f₁ f₂ n, n < f₁ → n < f₂ → natCharsAux f₁ n = natCharsAux f₂ n := by
  intro f₁
  induction f₁ with
  | zero => omega
  | succ f ih =>
    intro f₂ n h₁ h₂
    cases f₂ with
    | zero => omega
    | succ f₂' =>
      simp only [natCharsAux]
      by_cases h : n < 10
      · simp [h]
      · simp only [h, if_false]
        rw [ih f₂' (n / 10) (by omega) (by omega)]

theorem natChars_eq (n : Nat) :
    natChars n =
      if n < 10 then [Char.ofNat (48 + n)]
      else natChars (n / 10) ++ [Char.ofNat (48 + n % 10)] := by
  have h1 : natChars n =
      if n < 10 then [Char.ofNat (48 + n)]
      else natCharsAux n (n / 10) ++ [Char.ofNat (48 + n % 10)] := rfl
  rw [h1]
  by_cases h : n < 10
  · simp [h]
  · simp only [h, if_false]
    rw [natCharsAux_congr n (n / 10 + 1) (n / 10) (by omega) (by omega)]
    rfl

/-- Decimal rendering of `n`, as produced by a JS template literal. -/
def natStr (n : Nat) : String := ⟨natChars n⟩

/-- Consume a maximal run of digit characters, accumulating their value
(the `(\d+)` capture of the scan). -/
def parseDigits : List Char → Nat → Nat
  | c :: rest, acc => if c.isDigit then parseDigits rest (acc * 10 + (c.toNat - 48)) else acc
  | [], acc => acc

/-- Try to match `ai-(\d+)` at the head of the character list. -/
def aiHere : List Char → Option Nat
  | 'a' :: 'i' :: '-' :: c :: cs =>
    if c.isDigit then some (parseDigits cs (c.toNat - 48)) else none
  | _ => none

/-- Unanchored scan for `/ai-(\d+)/`: first position where it matches. -/
def aiMatch : List Char → Option Nat
  | [] => none
  | c :: cs =>
    match aiHere (c :: cs) with
    | some k => some k
    | none => aiMatch cs

/-- `id.match(/ai-(\d+)/)`, returning the captured number. -/
def aiSuffix (s : String) : Option Nat := aiMatch s.data

/-! ### Data model

`Node`/`Edge` embed the React Flow node and edge records as the component
reads and writes them.  Constant styling fields (`labelStyle`, `markerEnd`,
`style`) carry no information and are omitted. -/

/-- The React Flow `Position` enum used for `sourcePosition`/`targetPosition`. -/
inductive HandlePos where
  | top | bottom | left | right
deriving DecidableEq

/-- The `data` record of a state node: `{ label, isStart, isAccept }`. -/
structure NodeData where
  label : String
  isStart : Bool
  isAccept : Bool
deriving DecidableEq

/-- A state node as stored in the canvas's `nodes` array. -/
structure Node where
  id : String
  ntype : String
  position : Int × Int
  data : NodeData
  selected : Bool
  sourcePosition : Option HandlePos
  targetPosition : Option HandlePos
deriving DecidableEq

/-- A transition edge as stored in the canvas's `edges` array.  `etype` is the
optional `type` field (`"selfLoop"` for self-loop rendering). -/
structure Edge where
  id : String
  source : String
  target : String
  label : String
  etype : Option String
  sourceHandle : Option String
  targetHandle : Option String
deriving DecidableEq

/-- The mutable canvas state the draw-command effect works on:
`nodes`, `edges` and the `stateCounter`. -/
structure BatchState where
  nodes : List Node
  edges : List Edge
  counter : Nat
deriving DecidableEq

/-- The empty diagram: the canvas state on mount and after `clearCanvas`. -/
def emptyState : BatchState := { nodes := [], edges := [], counter := 0 }

/-- `` `ai-${n}` ``: the id given to the `n`-th AI-created state. -/
def mkAiId (n : Nat) : String := "ai-" ++ natStr n

/-- A draw command from the AI wire format
`{type, label?, isStart?, isAccept?, from?, to?, symbol?}`.  Absent fields are
`none`; unknown `type` values are carried by `unknownType`. -/
inductive DrawAction where
  | addState (label : Option String) (isStart isAccept : Option Bool)
  | addTransition (fromLabel toLabel symbol : Option String)
  | clearCanvas
  | unknownType (t : String)
deriving DecidableEq

/-- The max-suffix scan of the effect:
`newNodes.reduce((max, node) => …match(/ai-(\d+)/)…, 0)`. -/
def maxAiId (nodes : List Node) : Nat :=
  nodes.foldl
    (fun mx n =>
      match aiSuffix n.id with
      | some k => max mx k
      | none => mx) 0

/-- Label lookup `newNodes.find(n => n.data.label === l)`. -/
def findByLabel (nodes : List Node) (l : String) : Option Node :=
  nodes.find? (fun n => n.data.label == l)

/-- The duplicate-edge check
`newEdges.some(e => e.source === s && e.target === t && e.label === sym)`. -/
def edgeExists (edges : List Edge) (s t sym : String) : Bool :=
  edges.any (fun e => e.source == s && e.target == t && e.label == sym)

/-- The edge record built by the `addTransition` branch, including the
self-loop type/handles when source and target coincide. -/
def mkTransEdge (sn tn : Node) (sym : String) (now : Nat) : Edge :=
  let isSelfLoop := sn.id == tn.id
  { id := "e-" ++ sn.id ++ "-" ++ tn.id ++ "-" ++ sym ++ "-" ++ natStr now,
    source := sn.id,
    target := tn.id,
    label := sym,
    etype := if isSelfLoop then some "selfLoop" else none,
    sourceHandle := if isSelfLoop then some "right" else none,
    targetHandle := if isSelfLoop then some "top" else none }

/-- One iteration of the command loop: the body of
`for (const action of drawCommands) { … }`.  A JS truthiness test on a string
field (`action.label`, `action.from`, …) fails when the field is absent or the
empty string, and every failing guard falls through leaving the state
untouched. -/
def applyAction (now : Nat) (s : BatchState) (a : DrawAction) : BatchState :=
  match a with
  | .clearCanvas => { nodes := [], edges := [], counter := 0 }
  | .addState label isStart isAccept =>
    match label with
    | none => s
    | some l =>
      if l == "" then s
      else if s.nodes.any (fun n => n.data.label == l) then s
      else
        { s with
          nodes := s.nodes ++
            [{ id := mkAiId s.counter,
               ntype := "state",
               position := (0, 0),
               data :=
                 { label := l,
                   isAccept := isAccept.getD false,
                   isStart := isStart.getD false },
               selected := false,
               sourcePosition := none,
               targetPosition := none }],
          counter := s.counter + 1 }
  | .addTransition fromLabel toLabel symbol =>
    match fromLabel, toLabel, symbol with
    | some f, some t, some y =>
      if f == "" || t == "" || y == "" then s
      else
        match findByLabel s.nodes f, findByLabel s.nodes t with
        | some sn, some tn =>
          if edgeExists s.edges sn.id tn.id y then s
          else { s with edges := s.edges ++ [mkTransEdge sn tn y now] }
        | _, _ => s
    | _, _, _ => s
  | .unknownType _ => s

/-- The counter heal at the start of the effect:
`newCounter = Math.max(stateCounter, maxId + 1)`. -/
def healCounter (s : BatchState) : BatchState :=
  { s with counter := max s.counter (maxAiId s.nodes + 1) }

/-- The command loop applied after the heal, before layout. -/
def runBatchCore (now : Nat) (s : BatchState) (cmds : List DrawAction) : BatchState :=
  cmds.foldl (applyAction now) (healCounter s)

/-! ### Layout

`getLayoutedElements` feeds only node ids (with the constant 60×60 size) and
edge `(source, target)` pairs into a `dagre.graphlib.Graph` configured
`rankdir: LR, ranksep: 100, nodesep: 80`, runs `dagre.layout`, and writes the
returned centre coordinates back shifted by `-nodeWidth/2`/`-nodeHeight/2`
(= −30), also setting `targetPosition`/`sourcePosition`.  The dagre library
itself is not part of the repository.  Modelled from the spec: the Layout
Engine is a deterministic function of graph topology — layered left-to-right,
ranks by an iterated longest-path pass (self-loops ignored), fixed inter-rank
spacing (60 + 100) and fixed in-rank spacing (60 + 80), rank order along x and
order-within-rank along y over the canonically sorted node ids. -/

def nodeWidth : Int := 60
def nodeHeight : Int := 60

/-- Canonical node order: sorted, duplicate ids collapsed (graphlib keys
nodes by id). -/
def canonIds (ids : List String) : List String :=
  List.insertionSort (fun a b => a ≤ b) ids.dedup

/-- Rank of `v` in the association list, 0 when absent. -/
def lookupRank (rs : List (String × Nat)) (v : String) : Nat :=
  ((rs.find? (fun p => p.1 == v)).map (fun p => p.2)).getD 0

/-- One longest-path pass: each node's rank becomes one more than the largest
rank among its non-self-loop predecessors. -/
def rankPass (pairs : List (String × String)) (rs : List (String × Nat)) :
    List (String × Nat) :=
  rs.map (fun p =>
    (p.1,
      pairs.foldl
        (fun acc e =>
          if e.2 == p.1 && e.1 != p.1 then max acc (lookupRank rs e.1 + 1) else acc)
        0))

/-- Iterate the longest-path pass a fixed number of times. -/
def iterRanks (pairs : List (String × String)) : Nat → List (String × Nat) → List (String × Nat)
  | 0, rs => rs
  | k + 1, rs => iterRanks pairs k (rankPass pairs rs)

/-- Ranks of the canonical node list after `|ids|` longest-path passes. -/
def computeRanks (sids : List String) (pairs : List (String × String)) :
    List (String × Nat) :=
  iterRanks pairs sids.length (sids.map (fun v => (v, 0)))

/-- Centre position assigned to id `v`: x from its rank, y from its index
among same-rank ids in canonical order, shifted to the top-left anchor by
−width/2 and −height/2 as in the source. -/
def nodePosOf (sids : List String) (rs : List (String × Nat)) (v : String) : Int × Int :=
  let r := lookupRank rs v
  let i := (sids.takeWhile (fun u => u != v)).countP
    (fun u => lookupRank rs u == r)
  (Int.ofNat (r * 160) - nodeWidth / 2, Int.ofNat (i * 140) - nodeHeight / 2)

/-- `getLayoutedElements(nodes, edges, direction)`: positions every node from
the layout of the id/edge-pair graph, sets the handle sides for the chosen
orientation and returns the edges unchanged. -/
def getLayoutedElements (nodes : List Node) (edges : List Edge) (direction : String) :
    List Node × List Edge :=
  let isHorizontal := direction == "LR"
  let sids := canonIds (nodes.map (fun n => n.id))
  let rs := computeRanks sids (edges.map (fun e => (e.source, e.target)))
  (nodes.map (fun n =>
    { n with
      targetPosition := some (if isHorizontal then HandlePos.left else HandlePos.top),
      sourcePosition := some (if isHorizontal then HandlePos.right else HandlePos.bottom),
      position := nodePosOf sids rs n.id }),
   edges)

/-- The whole draw-command effect: early return on an empty batch, counter
heal, command loop, one dagre layout of the full result (`'LR'`), and the
`setNodes`/`setEdges`/`setStateCounter` writeback. -/
def processDrawCommands (now : Nat) (s : BatchState) (cmds : List DrawAction) : BatchState :=
  if cmds.isEmpty then s
  else
    let s' := runBatchCore now s cmds
    let le := getLayoutedElements s'.nodes s'.edges "LR"
    { nodes := le.1, edges := le.2, counter := s'.counter }

/-! ### User gesture handlers -/

/-- Number of states currently flagged as start states. -/
def startCount (nodes : List Node) : Nat :=
  nodes.countP (fun n => n.data.isStart)

/-- `onNodeClick` in `'start'` mode: flip the flag on the clicked node and
clear it on every other node. -/
def toggleStartClick (nodes : List Node) (clickedId : String) : List Node :=
  nodes.map (fun n =>
    { n with
      data :=
        { n.data with
          isStart := if n.id == clickedId then !n.data.isStart else false } })

/-- The `addState` gesture handler (click on empty canvas in `'state'` mode).
`promptResult` is the label prompt's return value (`none` = cancelled); the
handler trims it, rejects empty and duplicate labels, and otherwise appends a
state whose id is `` `state-${Date.now()}` `` and which is the start state iff
the diagram was empty. -/
def addStateUser (nodes : List Node) (counter : Nat) (pos : Int × Int)
    (promptResult : Option String) (now : Nat) : List Node × Nat :=
  match promptResult with
  | none => (nodes, counter)
  | some raw =>
    if raw.trim == "" then (nodes, counter)
    else if nodes.any (fun n => n.data.label == raw.trim) then (nodes, counter)
    else
      (nodes ++
        [{ id := "state-" ++ natStr now,
           ntype := "state",
           position := pos,
           data :=
             { label := raw.trim,
               isAccept := false,
               isStart := nodes.isEmpty },
           selected := false,
           sourcePosition := none,
           targetPosition := none }],
       counter + 1)

/-- `onEdgeClick`: replace the clicked edge's symbol with the prompt result
(no duplicate-triple check), or do nothing on cancel. -/
def onEdgeClick (edges : List Edge) (edgeId : String) (promptResult : Option String) :
    List Edge :=
  match promptResult with
  | none => edges
  | some newLabel =>
    edges.map (fun e => if e.id == edgeId then { e with label := newLabel } else e)

/-- JS handle comparison inside React Flow's duplicate-connection test:
equal, or both absent/empty (falsy). -/
def handleMatches (a b : Option String) : Bool :=
  a == b || (!(a.getD "" != "") && !(b.getD "" != ""))

/-- React Flow's `connectionExists` (external library helper used via
`addEdge`): an edge with the same source, target and handles is already
present.  The symbol label is not compared. -/
def connectionExists (edge : Edge) (edges : List Edge) : Bool :=
  edges.any (fun el =>
    el.source == edge.source && el.target == edge.target &&
      handleMatches el.sourceHandle edge.sourceHandle &&
      handleMatches el.targetHandle edge.targetHandle)

/-- React Flow's `addEdge` helper (external library): drop the edge if source
or target is missing or if the same connection already exists, otherwise
append it. -/
def addEdgeRF (edge : Edge) (edges : List Edge) : List Edge :=
  if edge.source == "" || edge.target == "" then edges
  else if connectionExists edge edges then edges
  else edges ++ [edge]

/-- The self-loop edge built by `addSelfLoop` for the selected node. -/
def mkSelfLoopEdge (sel : Node) (sym : String) (now : Nat) : Edge :=
  { id := "e" ++ sel.id ++ "-" ++ sel.id ++ "-" ++ natStr now,
    source := sel.id,
    target := sel.id,
    label := sym,
    etype := some "selfLoop",
    sourceHandle := some "right",
    targetHandle := some "top" }

/-- The "Add Self Loop" button handler: `nodes.find(n => n.selected)` picks
the first selected node; with no selection it alerts and returns (`none`);
otherwise it prompts for a symbol (cancel = no mutation) and adds the loop via
React Flow's `addEdge`. -/
def addSelfLoop (nodes : List Node) (edges : List Edge)
    (promptResult : Option String) (now : Nat) : Option (List Edge) :=
  match nodes.find? (fun n => n.selected) with
  | none => none
  | some sel =>
    match promptResult with
    | none => some edges
    | some sym => some (addEdgeRF (mkSelfLoopEdge sel sym now) edges)

/-- `clearCanvas` button: empty both collections, reset the counter. -/
def clearCanvasUser : BatchState := { nodes := [], edges := [], counter := 0 }

/-- Diagram states reachable from the empty canvas by AI draw-command
batches. -/
inductive Reachable : BatchState → Prop where
  | empty : Reachable emptyState
  | step (s : BatchState) (now : Nat) (cmds : List DrawAction) :
      Reachable s → Reachable (processDrawCommands now s cmds)

/-! ### Properties of the decimal rendering and the id scan -/

theorem ofNat_digit_isDigit {k : Nat} (hk : k < 10) :
    (Char.ofNat (48 + k)).isDigit = true ∧ (Char.ofNat (48 + k)).toNat = 48 + k := by
  interval_cases k <;> exact ⟨by decide, by decide⟩

theorem natChars_ne_nil (n : Nat) : natChars n ≠ [] := by
  rw [natChars_eq]
  split <;> simp

theorem natChars_all_digits (n : Nat) : ∀ c ∈ natChars n, c.isDigit = true := by
  induction n using Nat.strong_induction_on with
  | _ n ih =>
    rw [natChars_eq]
    split
    · next h =>
      intro c hc
      simp only [List.mem_singleton] at hc
      subst hc
      exact (ofNat_digit_isDigit h).1
    · next h =>
      intro c hc
      rw [List.mem_append] at hc
      rcases hc with hc | hc
      · exact ih (n / 10) (Nat.div_lt_self (by omega) (by omega)) c hc
      · simp only [List.mem_singleton] at hc
        subst hc
        exact (ofNat_digit_isDigit (Nat.mod_lt _ (by omega))).1

theorem parseDigits_append {cs : List Char} (h : ∀ c ∈ cs, c.isDigit = true)
    (ds : List Char) (acc : Nat) :
    parseDigits (cs ++ ds) acc = parseDigits ds (parseDigits cs acc) := by
  induction cs generalizing acc with
  | nil => simp [parseDigits]
  | cons c cs ih =>
    have hc : c.isDigit = true := h c (by simp)
    simp only [List.cons_append, parseDigits, hc, if_true]
    exact ih (fun x hx => h x (by simp [hx])) _

theorem parseDigits_natChars (n : Nat) :
    ∀ acc, parseDigits (natChars n) acc = acc * 10 ^ (natChars n).length + n := by
  induction n using Nat.strong_induction_on with
  | _ n ih =>
    intro acc
    rw [natChars_eq]
    split
    · next h =>
      obtain ⟨hd, ht⟩ := ofNat_digit_isDigit h
      simp [parseDigits, hd, ht]
    · next h =>
      have hlt : n % 10 < 10 := Nat.mod_lt _ (by omega)
      obtain ⟨hd, ht⟩ := ofNat_digit_isDigit hlt
      rw [parseDigits_append (natChars_all_digits _)]
      rw [ih (n / 10) (Nat.div_lt_self (by omega) (by omega)) acc]
      simp only [parseDigits, hd, if_true, ht, List.length_append,
        List.length_singleton, pow_succ]
      ring_nf
      omega

theorem aiSuffix_mkAiId (n : Nat) : aiSuffix (mkAiId n) = some n := by
  have hdata : (mkAiId n).data = 'a' :: 'i' :: '-' :: natChars n := rfl
  rw [aiSuffix, hdata]
  obtain ⟨d, ds, hds⟩ : ∃ d ds, natChars n = d :: ds := by
    cases h : natChars n with
    | nil => exact absurd h (natChars_ne_nil n)
    | cons d ds => exact ⟨d, ds, rfl⟩
  rw [hds]
  have hd : d.isDigit = true := natChars_all_digits n d (by rw [hds]; simp)
  simp only [aiMatch, aiHere, hd, if_true]
  have h0 := parseDigits_natChars n 0
  rw [hds] at h0
  simp only [parseDigits, hd, if_true, Nat.zero_mul, Nat.zero_add] at h0
  simp [h0]

theorem mkAiId_inj {a b : Nat} (h : mkAiId a = mkAiId b) : a = b := by
  have ha := aiSuffix_mkAiId a
  rw [h, aiSuffix_mkAiId b] at ha
  exact (Option.some_inj.mp ha).symm

/-! ### Claim C7: duplicate-label `addState` is an idempotent rejection -/

/-- C7: for every label, a second `addState` with the same label immediately
after a first one is a complete no-op (the whole canvas state, so in
particular the state count, is unchanged and the first-added state is
retained unmodified); concretely, `clearCanvas`, `addState("q0",
isStart:true)`, `addState("q0", isStart:false)` yields exactly one state,
labeled `"q0"`, with `isStart = true`. -/
theorem c7_addState_same_label_idempotent (now now' : Nat) (s : BatchState)
    (lab : Option String) (iS iA iS' iA' : Option Bool) :
    applyAction now' (applyAction now s (.addState lab iS iA)) (.addState lab iS' iA')
        = applyAction now s (.addState lab iS iA)
    ∧ (processDrawCommands 0 emptyState
        [.clearCanvas, .addState (some "q0") (some true) none,
         .addState (some "q0") (some false) none]).nodes.map
          (fun n => (n.data.label, n.data.isStart)) = [("q0", true)] := by
  refine ⟨?_, by decide⟩
  cases lab with
  | none => rfl
  | some l =>
    by_cases hl : l = ""
    · subst hl
      simp [applyAction]
    · have hl' : (l == "") = false := by simp [hl]
      cases h : s.nodes.any (fun n => n.data.label == l) with
      | true => simp [applyAction, hl', h]
      | false => simp [applyAction, hl', h, List.any_append]

/-! ### Claim C10: empty string fields behave like absent fields -/

/-- C10: at the AI command wire interface, an `addState` whose `label` is the
empty string, and an `addTransition` any of whose `from`/`to`/`symbol` fields
is the empty string, are treated exactly like commands with that field
absent: the command is skipped, the diagram is unchanged by it, and the
remaining commands of the batch still apply. -/
theorem c10_empty_field_like_absent (now : Nat) (s : BatchState)
    (iS iA : Option Bool) (fr tl sym : Option String) (rest : List DrawAction) :
    applyAction now s (.addState (some "") iS iA) = applyAction now s (.addState none iS iA)
    ∧ applyAction now s (.addState (some "") iS iA) = s
    ∧ applyAction now s (.addTransition (some "") tl sym)
        = applyAction now s (.addTransition none tl sym)
    ∧ applyAction now s (.addTransition (some "") tl sym) = s
    ∧ applyAction now s (.addTransition fr (some "") sym)
        = applyAction now s (.addTransition fr none sym)
    ∧ applyAction now s (.addTransition fr (some "") sym) = s
    ∧ applyAction now s (.addTransition fr tl (some ""))
        = applyAction now s (.addTransition fr tl none)
    ∧ applyAction now s (.addTransition fr tl (some "")) = s
    ∧ ((DrawAction.addState (some "") iS iA) :: rest).foldl (applyAction now) s
        = rest.foldl (applyAction now) s
    ∧ ((DrawAction.addTransition (some "") tl sym) :: rest).foldl (applyAction now) s
        = rest.foldl (applyAction now) s := by
  refine ⟨by simp [applyAction], by simp [applyAction], ?_, ?_, ?_, ?_, ?_, ?_,
    by simp [applyAction], ?_⟩
  · cases tl <;> cases sym <;> simp [applyAction]
  · cases tl <;> cases sym <;> simp [applyAction]
  · cases fr <;> cases sym <;> simp [applyAction]
  · cases fr <;> cases sym <;> simp [applyAction]
  · cases fr <;> cases tl <;> simp [applyAction]
  · cases fr <;> cases tl <;> simp [applyAction]
  · cases tl <;> cases sym <;> simp [applyAction]

/-! ### Claim C6: unresolved or malformed commands are skipped individually -/

/-- C6: an `addTransition` whose `from` or `to` label does not resolve to an
existing state is skipped leaving the diagram unchanged, a command missing a
required field is skipped, the remaining commands of the batch still run, and
on the empty diagram the batch `[addTransition "X" "Y" "a"]` yields 0 states
and 0 transitions. -/
theorem c6_unresolved_skipped_batch_continues (now : Nat) (s : BatchState)
    (f t y : String) (iS iA : Option Bool) (rest : List DrawAction)
    (h : findByLabel s.nodes f = none ∨ findByLabel s.nodes t = none) :
    applyAction now s (.addTransition (some f) (some t) (some y)) = s
    ∧ ((DrawAction.addTransition (some f) (some t) (some y)) :: rest).foldl
        (applyAction now) s = rest.foldl (applyAction now) s
    ∧ applyAction now s (.addState none iS iA) = s
    ∧ applyAction now s (.addTransition none (some t) (some y)) = s
    ∧ applyAction now s (.addTransition (some f) none (some y)) = s
    ∧ applyAction now s (.addTransition (some f) (some t) none) = s
    ∧ (processDrawCommands 0 emptyState
        [.addTransition (some "X") (some "Y") (some "a")]).nodes = []
    ∧ (processDrawCommands 0 emptyState
        [.addTransition (some "X") (some "Y") (some "a")]).edges = [] := by
  have h1 : applyAction now s (.addTransition (some f) (some t) (some y)) = s := by
    rcases h with h | h
    · cases ht : findByLabel s.nodes t <;> simp [applyAction, h, ht]
    · cases hf : findByLabel s.nodes f <;> simp [applyAction, h, hf]
  exact ⟨h1, by simp [List.foldl_cons, h1], by simp [applyAction], by simp [applyAction],
    by simp [applyAction], by simp [applyAction], by decide, by decide⟩

/-- Witness for C6 at a concrete input: on a one-state diagram, an
`addTransition` naming the missing labels "X"/"Y" is skipped and the batch
continues with the remaining commands. -/
theorem c6_unresolved_skipped_batch_continues_witness :
    (findByLabel emptyState.nodes "X" = none ∨ findByLabel emptyState.nodes "Y" = none)
    ∧ applyAction 0 emptyState (.addTransition (some "X") (some "Y") (some "a"))
        = emptyState :=
  ⟨by decide,
   (c6_unresolved_skipped_batch_continues 0 emptyState "X" "Y" "a" none none []
     (by decide)).1⟩

/-! ### Claim C2: batch order and resolution against the mutated store -/

/-- C2: commands are applied strictly in array order, each resolved against
the store as mutated by the earlier commands of the same batch: appending an
`addTransition` to any batch prefix appends exactly the resolved edge
whenever its labels resolve — and its triple is new — in the state produced
by the prefix, both for the raw command loop and for the full
`processDrawCommands` pipeline. -/
theorem c2_resolution_against_mutated_store (now : Nat) (s0 : BatchState)
    (cmds : List DrawAction) (f t y : String) (sn tn : Node)
    (hf : ¬ f = "") (ht : ¬ t = "") (hy : ¬ y = "")
    (hsn : findByLabel (runBatchCore now s0 cmds).nodes f = some sn)
    (htn : findByLabel (runBatchCore now s0 cmds).nodes t = some tn)
    (hdup : edgeExists (runBatchCore now s0 cmds).edges sn.id tn.id y = false) :
    (runBatchCore now s0 (cmds ++ [.addTransition (some f) (some t) (some y)])).edges
      = (runBatchCore now s0 cmds).edges ++ [mkTransEdge sn tn y now]
    ∧ (processDrawCommands now s0
        (cmds ++ [.addTransition (some f) (some t) (some y)])).edges
      = (runBatchCore now s0 cmds).edges ++ [mkTransEdge sn tn y now] := by
  have hfold : runBatchCore now s0 (cmds ++ [.addTransition (some f) (some t) (some y)])
      = applyAction now (runBatchCore now s0 cmds)
          (.addTransition (some f) (some t) (some y)) := by
    simp [runBatchCore, List.foldl_append]
  have h1 : (runBatchCore now s0
      (cmds ++ [.addTransition (some f) (some t) (some y)])).edges
      = (runBatchCore now s0 cmds).edges ++ [mkTransEdge sn tn y now] := by
    rw [hfold]
    simp [applyAction, hf, ht, hy, hsn, htn, hdup]
  refine ⟨h1, ?_⟩
  have hne : ((cmds ++ [DrawAction.addTransition (some f) (some t) (some y)]).isEmpty)
      = false := by
    cases cmds <;> simp
  simp only [processDrawCommands, hne, Bool.false_eq_true, if_false]
  exact h1

/-- Witness for C2 at a concrete input: on the empty diagram, the batch
prefix adds states "A" and "B", and the appended transition "A"→"B"/"x" —
whose endpoints did not exist at batch start — resolves against the mutated
store and is added. -/
theorem c2_resolution_against_mutated_store_witness :
    (¬ "A" = "" ∧ ¬ "B" = "" ∧ ¬ "x" = "")
    ∧ (processDrawCommands 0 emptyState
        [.addState (some "A") (some true) none, .addState (some "B") none none,
         .addTransition (some "A") (some "B") (some "x")]).edges
      = (runBatchCore 0 emptyState
          [.addState (some "A") (some true) none,
           .addState (some "B") none none]).edges
        ++ [mkTransEdge
              { id := "ai-1", ntype := "state", position := (0, 0),
                data := { label := "A", isAccept := false, isStart := true },
                selected := false, sourcePosition := none, targetPosition := none }
              { id := "ai-2", ntype := "state", position := (0, 0),
                data := { label := "B", isAccept := false, isStart := false },
                selected := false, sourcePosition := none, targetPosition := none }
              "x" 0] :=
  ⟨⟨by decide, by decide, by decide⟩,
   (c2_resolution_against_mutated_store 0 emptyState
      [.addState (some "A") (some true) none, .addState (some "B") none none]
      "A" "B" "x" _ _ (by decide) (by decide) (by decide)
      (by decide) (by decide) (by decide)).2⟩

/-! ### Counting helpers for the start-state flag -/

/-- A concrete state node, used for witnesses and counterexamples. -/
def sampleNode (i l : String) (st sel : Bool) : Node :=
  { id := i, ntype := "state", position := (0, 0),
    data := { label := l, isStart := st, isAccept := false },
    selected := sel, sourcePosition := none, targetPosition := none }

theorem countP_id_and (l : List Node) (B : Node) (q : Node → Bool)
    (hmem : B ∈ l) (hnd : (l.map (fun n => n.id)).Nodup) :
    l.countP (fun n => (n.id == B.id) && q n) = if q B then 1 else 0 := by
  induction l with
  | nil => cases hmem
  | cons a l ih =>
    rw [List.map_cons, List.nodup_cons] at hnd
    obtain ⟨ha, hnd'⟩ := hnd
    rcases List.mem_cons.mp hmem with rfl | hmem'
    · rw [List.countP_cons]
      have hz : l.countP (fun n => (n.id == B.id) && q n) = 0 := by
        rw [List.countP_eq_zero]
        intro n hn
        have hne : n.id ≠ B.id := by
          intro he
          exact ha (he ▸ List.mem_map_of_mem (fun n => n.id) hn)
        simp [hne]
      rw [hz]
      by_cases hq : q B <;> simp [hq]
    · have haB : (a.id == B.id) = false := by
        have : a.id ≠ B.id := by
          intro he
          exact ha (he ▸ List.mem_map_of_mem (fun n => n.id) hmem')
        simp [this]
      rw [List.countP_cons]
      simp [haB, ih hmem' hnd']

theorem countP_id_le_one (l : List Node) (cid : String)
    (hnd : (l.map (fun n => n.id)).Nodup) :
    l.countP (fun n => n.id == cid) ≤ 1 := by
  induction l with
  | nil => simp
  | cons a l ih =>
    rw [List.map_cons, List.nodup_cons] at hnd
    obtain ⟨ha, hnd'⟩ := hnd
    rw [List.countP_cons]
    by_cases hc : a.id = cid
    · have hz : l.countP (fun n => n.id == cid) = 0 := by
        rw [List.countP_eq_zero]
        intro n hn
        have hne : n.id ≠ a.id := by
          intro he
          exact ha (he ▸ List.mem_map_of_mem (fun n => n.id) hn)
        rw [hc] at hne
        simp [hne]
      simp [hz, hc]
    · simp only [show (a.id == cid) = false by simp [hc], if_false]
      simpa using ih hnd'

/-- After a toggle-start click, a node is a start state exactly when it is
the clicked node and was not a start state before. -/
theorem startCount_toggle (nodes : List Node) (cid : String) :
    startCount (toggleStartClick nodes cid)
      = nodes.countP (fun n => (n.id == cid) && !n.data.isStart) := by
  rw [startCount, toggleStartClick, List.countP_map]
  congr 1
  funext n
  cases hc : n.id == cid <;> simp [hc, Function.comp]

/-! ### Claim C8: toggle-start yields the clicked node as unique start -/

/-- C8 amended: in a diagram with pairwise-distinct node ids, clicking state
`B` in toggle-start mode yields exactly one start state — `B` — provided `B`
was not already the start state; every other state's flag is cleared in all
cases, but when `B` was already the start state the click clears its flag
too, leaving zero start states. -/
theorem c8_toggle_start_exclusive (nodes : List Node) (B : Node)
    (hmem : B ∈ nodes) (hnd : (nodes.map (fun n => n.id)).Nodup) :
    (B.data.isStart = false →
      startCount (toggleStartClick nodes B.id) = 1
      ∧ ∀ n ∈ toggleStartClick nodes B.id, n.data.isStart = true → n.id = B.id)
    ∧ (B.data.isStart = true → startCount (toggleStartClick nodes B.id) = 0) := by
  have hmembers : ∀ n ∈ toggleStartClick nodes B.id, n.data.isStart = true → n.id = B.id := by
    intro n hn hstart
    rw [toggleStartClick] at hn
    obtain ⟨m, hm, rfl⟩ := List.mem_map.mp hn
    by_cases hc : m.id == B.id
    · simpa using hc
    · simp [hc] at hstart
  constructor
  · intro hB
    refine ⟨?_, hmembers⟩
    rw [startCount_toggle, countP_id_and nodes B (fun n => !n.data.isStart) hmem hnd]
    simp [hB]
  · intro hB
    rw [startCount_toggle, countP_id_and nodes B (fun n => !n.data.isStart) hmem hnd]
    simp [hB]

/-- Witness for C8 at a concrete input: toggling start on non-start state
"s2" while "s1" is the start state leaves exactly one start state. -/
theorem c8_toggle_start_exclusive_witness :
    sampleNode "s2" "B" false false ∈
        [sampleNode "s1" "A" true false, sampleNode "s2" "B" false false]
    ∧ (([sampleNode "s1" "A" true false, sampleNode "s2" "B" false false].map
        (fun n => n.id)).Nodup)
    ∧ startCount (toggleStartClick
        [sampleNode "s1" "A" true false, sampleNode "s2" "B" false false] "s2") = 1 :=
  ⟨by decide, by decide,
   ((c8_toggle_start_exclusive
      [sampleNode "s1" "A" true false, sampleNode "s2" "B" false false]
      (sampleNode "s2" "B" false false) (by decide) (by decide)).1 (by decide)).1⟩

/-- C8 counterexample: with a single state that is already the start state (a
configuration with one start state, allowed by the claim), the toggle-start
gesture on it yields zero start states, not exactly one. -/
theorem c8_counterexample :
    startCount [sampleNode "s1" "B" true false] ≤ 1
    ∧ ¬ startCount (toggleStartClick [sampleNode "s1" "B" true false] "s1") = 1 := by
  decide

/-! ### Claim C1: the at-most-one-start invariant -/

/-- C1 amended: the at-most-one-start bound is preserved by the toggle-start
click (which even establishes it), by the user add-state gesture, and by an
AI `addState` command whose `isStart` field is absent or false.  (An AI
`addState` with `isStart:true` does not clear existing flags; see the
counterexample.) -/
theorem c1_start_bound_preserved (nodes : List Node) (cid : String)
    (counter now now' : Nat) (pos : Int × Int) (pr : Option String)
    (s : BatchState) (lab : Option String) (iS iA : Option Bool)
    (hnd : (nodes.map (fun n => n.id)).Nodup)
    (h1 : startCount nodes ≤ 1)
    (hs : startCount s.nodes ≤ 1)
    (hS : iS.getD false = false) :
    startCount (toggleStartClick nodes cid) ≤ 1
    ∧ startCount (addStateUser nodes counter pos pr now).1 ≤ 1
    ∧ startCount (applyAction now' s (.addState lab iS iA)).nodes ≤ 1 := by
  refine ⟨?_, ?_, ?_⟩
  · rw [startCount_toggle]
    calc nodes.countP (fun n => (n.id == cid) && !n.data.isStart)
        ≤ nodes.countP (fun n => n.id == cid) :=
          List.countP_mono_left (fun n _ h => by
            simp only [Bool.and_eq_true] at h
            exact h.1)
      _ ≤ 1 := countP_id_le_one nodes cid hnd
  · cases pr with
    | none => exact h1
    | some raw =>
      by_cases h2 : raw.trim == ""
      · simp [addStateUser, h2]
        exact h1
      · by_cases h3 : nodes.any (fun n => n.data.label == raw.trim)
        · simp [addStateUser, h2, h3]
          exact h1
        · simp only [addStateUser, h2, h3, if_false, Bool.false_eq_true]
          rw [startCount, List.countP_append]
          cases hn : nodes with
          | nil => simp
          | cons a l =>
            rw [← hn]
            have : nodes.isEmpty = false := by rw [hn]; rfl
            simp only [this, List.countP_cons, List.countP_nil]
            rw [← startCount]
            simpa [this] using h1
  · cases lab with
    | none => exact hs
    | some l =>
      by_cases hl : l == ""
      · simp [applyAction, hl]
        exact hs
      · by_cases h3 : s.nodes.any (fun n => n.data.label == l)
        · simp [applyAction, hl, h3]
          exact hs
        · simp only [applyAction, hl, h3, if_false, Bool.false_eq_true]
          rw [startCount, List.countP_append]
          simp only [List.countP_cons, List.countP_nil, hS]
          rw [← startCount]
          simpa using hs

/-- Witness for C1 at a concrete input: all three preservation statements
applied to a one-start diagram. -/
theorem c1_start_bound_preserved_witness :
    (([sampleNode "s1" "A" true false].map (fun n => n.id)).Nodup
      ∧ startCount [sampleNode "s1" "A" true false] ≤ 1
      ∧ startCount emptyState.nodes ≤ 1
      ∧ (Option.getD (some false) false) = false)
    ∧ startCount (toggleStartClick [sampleNode "s1" "A" true false] "s1") ≤ 1
    ∧ startCount
        (addStateUser [sampleNode "s1" "A" true false] 1 (0, 0) (some "B") 5).1 ≤ 1
    ∧ startCount
        (applyAction 0 emptyState (.addState (some "A") (some false) none)).nodes ≤ 1 := by
  have h := c1_start_bound_preserved [sampleNode "s1" "A" true false] "s1" 1 5 0
    (0, 0) (some "B") emptyState (some "A") (some false) none
    (by decide) (by decide) (by decide) (by decide)
  exact ⟨⟨by decide, by decide, by decide, by decide⟩, h.1, h.2.1, h.2.2⟩

/-- C1 counterexample: a reachable diagram (one AI batch from the empty
canvas) in which two states have `isStart = true` — the AI `addState`
command does not preserve the at-most-one-start bound. -/
theorem c1_counterexample :
    Reachable (processDrawCommands 0 emptyState
      [.addState (some "A") (some true) none, .addState (some "B") (some true) none])
    ∧ startCount (processDrawCommands 0 emptyState
        [.addState (some "A") (some true) none,
         .addState (some "B") (some true) none]).nodes = 2 :=
  ⟨Reachable.step emptyState 0 _ Reachable.empty, by decide⟩

/-! ### Claim C9: self-loop action and the selection state -/

/-- C9 amended: the "Add Self Loop" action is rejected with a user-facing
message (and no diagram change) exactly when no node is selected; when one
or more nodes are selected it is not rejected — it operates on the first
selected node in array order. -/
theorem c9_self_loop_selection (nodes : List Node) (edges : List Edge)
    (now : Nat) (sel : Node) (sym : String) (pr : Option String) :
    (nodes.find? (fun n => n.selected) = none → addSelfLoop nodes edges pr now = none)
    ∧ ((∀ n ∈ nodes, n.selected = false) → addSelfLoop nodes edges pr now = none)
    ∧ (nodes.find? (fun n => n.selected) = some sel →
        addSelfLoop nodes edges (some sym) now
          = some (addEdgeRF (mkSelfLoopEdge sel sym now) edges)) := by
  refine ⟨?_, ?_, ?_⟩
  · intro h
    simp [addSelfLoop, h]
  · intro h
    have hnone : nodes.find? (fun n => n.selected) = none := by
      rw [List.find?_eq_none]
      intro n hn
      simp [h n hn]
    simp [addSelfLoop, hnone]
  · intro h
    simp [addSelfLoop, h]

/-- Witness for C9 at concrete inputs: no selection is rejected; a single
selected node receives the loop. -/
theorem c9_self_loop_selection_witness :
    ([sampleNode "s1" "A" false false].find? (fun n => n.selected) = none
      ∧ addSelfLoop [sampleNode "s1" "A" false false] [] (some "a") 7 = none)
    ∧ ([sampleNode "s1" "A" false true].find? (fun n => n.selected)
          = some (sampleNode "s1" "A" false true)
      ∧ addSelfLoop [sampleNode "s1" "A" false true] [] (some "a") 7
          = some (addEdgeRF (mkSelfLoopEdge (sampleNode "s1" "A" false true) "a" 7) [])) :=
  ⟨⟨by decide,
    (c9_self_loop_selection [sampleNode "s1" "A" false false] [] 7
      (sampleNode "s1" "A" false false) "a" (some "a")).1 (by decide)⟩,
   ⟨by decide,
    (c9_self_loop_selection [sampleNode "s1" "A" false true] [] 7
      (sampleNode "s1" "A" false true) "a" (some "a")).2.2 (by decide)⟩⟩

/-- C9 counterexample: with two nodes selected the action is not rejected
and the diagram does not stay unchanged — a self-loop is added to the first
selected node. -/
theorem c9_counterexample :
    ¬ addSelfLoop [sampleNode "s1" "A" false true, sampleNode "s2" "B" false true]
        [] (some "a") 7 = none
    ∧ ¬ addSelfLoop [sampleNode "s1" "A" false true, sampleNode "s2" "B" false true]
        [] (some "a") 7 = some [] := by
  decide

/-! ### Claim C4: layout determinism -/

theorem canonIds_perm_eq {l₁ l₂ : List String} (h : l₁.Perm l₂) :
    canonIds l₁ = canonIds l₂ := by
  unfold canonIds
  refine List.eq_of_perm_of_sorted ?_ (List.sorted_insertionSort _ _)
    (List.sorted_insertionSort _ _)
  exact (List.perm_insertionSort _ _).trans (h.dedup.trans (List.perm_insertionSort _ _).symm)

theorem rankFold_perm (v : String) (rs : List (String × Nat))
    {p₁ p₂ : List (String × String)} (h : p₁.Perm p₂) :
    p₁.foldl
      (fun acc e => if e.2 == v && e.1 != v then max acc (lookupRank rs e.1 + 1) else acc) 0
      = p₂.foldl
        (fun acc e => if e.2 == v && e.1 != v then max acc (lookupRank rs e.1 + 1) else acc)
        0 := by
  refine h.foldl_eq' ?_ 0
  intro x _hx y _hy z
  by_cases h1 : (x.2 == v && x.1 != v) = true <;>
    by_cases h2 : (y.2 == v && y.1 != v) = true <;>
      simp [h1, h2, sup_right_comm]

theorem rankPass_perm {p₁ p₂ : List (String × String)} (h : p₁.Perm p₂)
    (rs : List (String × Nat)) : rankPass p₁ rs = rankPass p₂ rs := by
  unfold rankPass
  refine List.map_congr_left ?_
  intro p _hp
  rw [rankFold_perm p.1 rs h]

theorem iterRanks_perm {p₁ p₂ : List (String × String)} (h : p₁.Perm p₂) :
    ∀ k rs, iterRanks p₁ k rs = iterRanks p₂ k rs := by
  intro k
  induction k with
  | zero => intro rs; rfl
  | succ k ih =>
    intro rs
    simp only [iterRanks]
    rw [rankPass_perm h, ih]

theorem computeRanks_perm (sids : List String) {p₁ p₂ : List (String × String)}
    (h : p₁.Perm p₂) : computeRanks sids p₁ = computeRanks sids p₂ := by
  unfold computeRanks
  rw [iterRanks_perm h]

theorem getLayouted_pairs (nodes : List Node) (edges : List Edge) (d : String) :
    (getLayoutedElements nodes edges d).1.map (fun n => (n.id, n.position))
      = (nodes.map (fun n => n.id)).map
          (fun v =>
            (v, nodePosOf (canonIds (nodes.map (fun n => n.id)))
              (computeRanks (canonIds (nodes.map (fun n => n.id)))
                (edges.map (fun e => (e.source, e.target)))) v)) := by
  simp only [getLayoutedElements, List.map_map]
  rfl

/-- C4: the layout step is a pure, deterministic function of graph topology:
for any two node/edge arrays describing the same set of state ids and the
same set of transition endpoint pairs — in any insertion order, with any
prior positions and any other node/edge data — every state is assigned an
identical position. -/
theorem c4_layout_deterministic (nodes₁ nodes₂ : List Node) (edges₁ edges₂ : List Edge)
    (hn : (nodes₁.map (fun n => n.id)).Perm (nodes₂.map (fun n => n.id)))
    (he : (edges₁.map (fun e => (e.source, e.target))).Perm
        (edges₂.map (fun e => (e.source, e.target)))) :
    ((getLayoutedElements nodes₁ edges₁ "LR").1.map (fun n => (n.id, n.position))).Perm
      ((getLayoutedElements nodes₂ edges₂ "LR").1.map (fun n => (n.id, n.position))) := by
  have hs : canonIds (nodes₁.map (fun n => n.id)) = canonIds (nodes₂.map (fun n => n.id)) :=
    canonIds_perm_eq hn
  rw [getLayouted_pairs, getLayouted_pairs, hs,
    computeRanks_perm (canonIds (nodes₂.map (fun n => n.id))) he]
  exact hn.map _

/-- Witness for C4 at concrete inputs: the same two states and one
transition, inserted in opposite orders with different prior positions and
different edge ids/symbols, receive identical positions. -/
theorem c4_layout_deterministic_witness :
    (([sampleNode "s1" "A" false false, sampleNode "s2" "B" false false].map
        (fun n => n.id)).Perm
      ([{ sampleNode "s2" "X" true true with position := (55, 99) },
        { sampleNode "s1" "Y" false false with position := (7, -3) }].map
        (fun n => n.id))
      ∧ (([⟨"e1", "s1", "s2", "x", none, none, none⟩] : List Edge).map
          (fun e => (e.source, e.target))).Perm
        (([⟨"zz", "s1", "s2", "y", some "selfLoop", none, none⟩] : List Edge).map
          (fun e => (e.source, e.target))))
    ∧ ((getLayoutedElements
          [sampleNode "s1" "A" false false, sampleNode "s2" "B" false false]
          [⟨"e1", "s1", "s2", "x", none, none, none⟩] "LR").1.map
            (fun n => (n.id, n.position))).Perm
        ((getLayoutedElements
          [{ sampleNode "s2" "X" true true with position := (55, 99) },
           { sampleNode "s1" "Y" false false with position := (7, -3) }]
          [⟨"zz", "s1", "s2", "y", some "selfLoop", none, none⟩] "LR").1.map
            (fun n => (n.id, n.position))) :=
  ⟨⟨by decide, by decide⟩,
   c4_layout_deterministic _ _ _ _ (by decide) (by decide)⟩

/-! ### Claim C3: id bookkeeping -/

/-- Id bookkeeping invariant of the command loop: every node id is an
AI-generated id whose numeric suffix is below the counter, and node ids are
pairwise distinct. -/
def GoodIds (nodes : List Node) (counter : Nat) : Prop :=
  (∀ n ∈ nodes, ∃ k, n.id = mkAiId k ∧ k < counter)
  ∧ (nodes.map (fun n => n.id)).Nodup

theorem goodIds_mono {nodes : List Node} {c c' : Nat} (h : GoodIds nodes c)
    (hc : c ≤ c') : GoodIds nodes c' := by
  refine ⟨?_, h.2⟩
  intro n hn
  obtain ⟨k, hk, hlt⟩ := h.1 n hn
  exact ⟨k, hk, by omega⟩

theorem applyAction_addTransition_nodes (now : Nat) (s : BatchState)
    (f t y : Option String) :
    (applyAction now s (.addTransition f t y)).nodes = s.nodes
    ∧ (applyAction now s (.addTransition f t y)).counter = s.counter := by
  cases f with
  | none => exact ⟨rfl, rfl⟩
  | some f =>
    cases t with
    | none => exact ⟨rfl, rfl⟩
    | some t =>
      cases y with
      | none => exact ⟨rfl, rfl⟩
      | some y =>
        simp only [applyAction]
        split
        · exact ⟨rfl, rfl⟩
        · cases hf : findByLabel s.nodes f with
          | none => exact ⟨rfl, rfl⟩
          | some sn =>
            cases ht : findByLabel s.nodes t with
            | none => exact ⟨rfl, rfl⟩
            | some tn =>
              simp only
              split
              · exact ⟨rfl, rfl⟩
              · exact ⟨rfl, rfl⟩

theorem applyAction_addState_cases (now : Nat) (s : BatchState)
    (lab : Option String) (iS iA : Option Bool) :
    applyAction now s (.addState lab iS iA) = s
    ∨ ∃ l, lab = some l
        ∧ applyAction now s (.addState lab iS iA)
          = { s with
              nodes := s.nodes ++
                [{ id := mkAiId s.counter,
                   ntype := "state",
                   position := (0, 0),
                   data :=
                     { label := l,
                       isAccept := iA.getD false,
                       isStart := iS.getD false },
                   selected := false,
                   sourcePosition := none,
                   targetPosition := none }],
              counter := s.counter + 1 } := by
  cases lab with
  | none => exact Or.inl rfl
  | some l =>
    by_cases hl : (l == "") = true
    · exact Or.inl (by simp [applyAction, hl])
    · by_cases h3 : s.nodes.any (fun n => n.data.label == l) = true
      · exact Or.inl (by simp [applyAction, hl, h3])
      · refine Or.inr ⟨l, rfl, ?_⟩
        simp [applyAction, hl, h3]

theorem goodIds_applyAction (now : Nat) (s : BatchState) (a : DrawAction)
    (h : GoodIds s.nodes s.counter) :
    GoodIds (applyAction now s a).nodes (applyAction now s a).counter := by
  cases a with
  | clearCanvas => exact ⟨by simp [applyAction], by simp [applyAction]⟩
  | unknownType t => exact h
  | addTransition f t y =>
    obtain ⟨hn, hc⟩ := applyAction_addTransition_nodes now s f t y
    rw [hn, hc]
    exact h
  | addState lab iS iA =>
    rcases applyAction_addState_cases now s lab iS iA with he | ⟨l, _, he⟩
    · rw [he]; exact h
    · rw [he]
      dsimp only
      constructor
      · intro n hn
        rcases List.mem_append.mp hn with hn | hn
        · obtain ⟨k, hk, hlt⟩ := h.1 n hn
          exact ⟨k, hk, by omega⟩
        · rw [List.mem_singleton] at hn
          subst hn
          exact ⟨s.counter, rfl, by omega⟩
      · rw [List.map_append, List.nodup_append]
        refine ⟨h.2, by simp, ?_⟩
        intro x hx hx'
        simp only [List.map_cons, List.map_nil, List.mem_singleton] at hx'
        subst hx'
        obtain ⟨m, hm, hmid⟩ := List.mem_map.mp hx
        obtain ⟨k, hk, hlt⟩ := h.1 m hm
        have := mkAiId_inj (hmid.symm.trans hk)
        omega

theorem goodIds_fold (now : Nat) (cmds : List DrawAction) :
    ∀ s : BatchState, GoodIds s.nodes s.counter →
      GoodIds (cmds.foldl (applyAction now) s).nodes
        (cmds.foldl (applyAction now) s).counter := by
  induction cmds with
  | nil => intro s h; exact h
  | cons a cmds ih =>
    intro s h
    rw [List.foldl_cons]
    exact ih _ (goodIds_applyAction now s a h)

theorem getLayouted_map_id (nodes : List Node) (edges : List Edge) (d : String) :
    (getLayoutedElements nodes edges d).1.map (fun n => n.id)
      = nodes.map (fun n => n.id) := by
  simp only [getLayoutedElements, List.map_map]
  rfl

theorem goodIds_getLayouted (nodes : List Node) (edges : List Edge) (d : String)
    (c : Nat) (h : GoodIds nodes c) :
    GoodIds ((getLayoutedElements nodes edges d).1) c := by
  constructor
  · intro n hn
    simp only [getLayoutedElements, List.mem_map] at hn
    obtain ⟨m, hm, rfl⟩ := hn
    exact h.1 m hm
  · rw [getLayouted_map_id]
    exact h.2

theorem goodIds_process (now : Nat) (s : BatchState) (cmds : List DrawAction)
    (h : GoodIds s.nodes s.counter) :
    GoodIds (processDrawCommands now s cmds).nodes
      (processDrawCommands now s cmds).counter := by
  by_cases hne : cmds.isEmpty
  · simp only [processDrawCommands, hne, if_true]
    exact h
  · simp only [processDrawCommands, hne, Bool.false_eq_true, if_false]
    have hh : GoodIds (healCounter s).nodes (healCounter s).counter :=
      goodIds_mono h (Nat.le_max_left _ _)
    exact goodIds_getLayouted _ _ _ _ (goodIds_fold now cmds (healCounter s) hh)

theorem reachable_goodIds {d : BatchState} (h : Reachable d) :
    GoodIds d.nodes d.counter := by
  induction h with
  | empty => exact ⟨by simp [emptyState], by simp [emptyState]⟩
  | step s now cmds _hs ih => exact goodIds_process now s cmds ih

/-- C3 amended: live state ids never collide — in every diagram reachable
from the empty canvas by AI command batches the ids of the states are
pairwise distinct (the max-suffix scan keeps new ids ahead of every existing
id).  However, `clearCanvas` resets the id counter to 0, so an id used
before a clear can be reassigned to a different state after the clear (see
the counterexample). -/
theorem c3_live_ids_distinct (d : BatchState) (h : Reachable d) :
    (d.nodes.map (fun n => n.id)).Nodup :=
  (reachable_goodIds h).2

/-- Witness for C3 at a concrete input: a reachable diagram built by two
batches, the second of which clears and re-adds states, has pairwise
distinct ids. -/
theorem c3_live_ids_distinct_witness :
    ((processDrawCommands 3 (processDrawCommands 0 emptyState
        [.addState (some "A") none none, .addState (some "B") none none])
        [.clearCanvas, .addState (some "C") none none,
         .addState (some "D") none none]).nodes.map (fun n => n.id)).Nodup :=
  c3_live_ids_distinct _
    (Reachable.step _ 3 _ (Reachable.step _ 0 _ Reachable.empty))

/-- C3 counterexample: ids are reused across a `clearCanvas`.  The first
batch creates state "A" with id "ai-1"; after the clear, the second batch
assigns the same id "ai-1" to the brand-new state "D", so a post-clear state
receives an id that existed before the clear. -/
theorem c3_counterexample :
    (processDrawCommands 0 emptyState
      [.addState (some "A") none none, .addState (some "B") none none]).nodes.map
        (fun n => (n.id, n.data.label)) = [("ai-1", "A"), ("ai-2", "B")]
    ∧ (processDrawCommands 3 (processDrawCommands 0 emptyState
        [.addState (some "A") none none, .addState (some "B") none none])
        [.clearCanvas, .addState (some "C") none none,
         .addState (some "D") none none]).nodes.map
        (fun n => (n.id, n.data.label)) = [("ai-0", "C"), ("ai-1", "D")] := by
  decide

/-! ### Claim C5: transition-triple uniqueness -/

/-- The `(sourceId, targetId, symbol)` triple of an edge. -/
def tripleKey (e : Edge) : String × String × String := (e.source, e.target, e.label)

/-- No two edges of the collection share their `(source, target, symbol)`
triple. -/
def TripleUnique (edges : List Edge) : Prop := (edges.map tripleKey).Nodup

theorem applyAction_addTransition_edges_cases (now : Nat) (s : BatchState)
    (f t y : Option String) :
    (applyAction now s (.addTransition f t y)).edges = s.edges
    ∨ ∃ y' sn tn,
        findByLabel s.nodes ((f.getD "")) = some sn
        ∧ findByLabel s.nodes ((t.getD "")) = some tn
        ∧ y = some y'
        ∧ edgeExists s.edges sn.id tn.id y' = false
        ∧ (applyAction now s (.addTransition f t y)).edges
            = s.edges ++ [mkTransEdge sn tn y' now] := by
  cases f with
  | none => exact Or.inl rfl
  | some f =>
    cases t with
    | none => exact Or.inl rfl
    | some t =>
      cases y with
      | none => exact Or.inl rfl
      | some y =>
        simp only [applyAction]
        split
        · exact Or.inl rfl
        · cases hf : findByLabel s.nodes f with
          | none => exact Or.inl rfl
          | some sn =>
            cases ht : findByLabel s.nodes t with
            | none => exact Or.inl rfl
            | some tn =>
              simp only
              split
              · next hdup => exact Or.inl rfl
              · next hdup =>
                refine Or.inr ⟨y, sn, tn, hf, ht, rfl, ?_, rfl⟩
                simpa using hdup

theorem tripleUnique_applyAction (now : Nat) (s : BatchState) (a : DrawAction)
    (h : TripleUnique s.edges) : TripleUnique (applyAction now s a).edges := by
  cases a with
  | clearCanvas => simp [applyAction, TripleUnique]
  | unknownType t => exact h
  | addState lab iS iA =>
    rcases applyAction_addState_cases now s lab iS iA with he | ⟨l, _, he⟩ <;> rw [he]
    · exact h
    · exact h
  | addTransition f t y =>
    rcases applyAction_addTransition_edges_cases now s f t y with
      he | ⟨y', sn, tn, _hf, _ht, _hy, hdup, he⟩ <;> rw [he]
    · exact h
    · rw [TripleUnique, List.map_append, List.nodup_append]
      refine ⟨h, by simp, ?_⟩
      intro x hx hx'
      simp only [List.map_cons, List.map_nil, List.mem_singleton] at hx'
      subst hx'
      obtain ⟨e, he', hte⟩ := List.mem_map.mp hx
      rw [edgeExists, List.any_eq_false] at hdup
      apply hdup e he'
      simp only [tripleKey, mkTransEdge, Prod.mk.injEq] at hte
      simp [hte.1, hte.2.1, hte.2.2]

theorem tripleUnique_fold (now : Nat) (cmds : List DrawAction) :
    ∀ s : BatchState, TripleUnique s.edges →
      TripleUnique ((cmds.foldl (applyAction now) s)).edges := by
  induction cmds with
  | nil => intro s h; exact h
  | cons a cmds ih =>
    intro s h
    rw [List.foldl_cons]
    exact ih _ (tripleUnique_applyAction now s a h)

theorem tripleUnique_process (now : Nat) (s : BatchState) (cmds : List DrawAction)
    (h : TripleUnique s.edges) :
    TripleUnique (processDrawCommands now s cmds).edges := by
  by_cases hne : cmds.isEmpty
  · simp only [processDrawCommands, hne, if_true]
    exact h
  · simp only [processDrawCommands, hne, Bool.false_eq_true, if_false]
    exact tripleUnique_fold now cmds (healCounter s) h

theorem reachable_tripleUnique {d : BatchState} (h : Reachable d) :
    TripleUnique d.edges := by
  induction h with
  | empty => exact List.nodup_nil
  | step s now cmds _hs ih => exact tripleUnique_process now s cmds ih

/-- C5 amended: in every diagram reachable by AI command batches the
`(sourceId, targetId, symbol)` triples of the transitions are pairwise
distinct, and an `addTransition` whose resolved triple already exists is a
silent no-op — in particular the batch `[addState A, addState B,
addTransition A-B "x", addTransition A-B "x"]` yields 2 states and exactly 1
transition.  (The edge-click symbol editor does not re-check the triple and
can create a duplicate — see the counterexample.) -/
theorem c5_triple_unique_ai_path (d : BatchState) (h : Reachable d) :
    TripleUnique d.edges
    ∧ (∀ now f t y sn tn,
        findByLabel d.nodes f = some sn → findByLabel d.nodes t = some tn →
        edgeExists d.edges sn.id tn.id y = true →
        applyAction now d (.addTransition (some f) (some t) (some y)) = d)
    ∧ (processDrawCommands 0 emptyState
        [.addState (some "A") (some true) (some false),
         .addState (some "B") (some false) (some false),
         .addTransition (some "A") (some "B") (some "x"),
         .addTransition (some "A") (some "B") (some "x")]).nodes.length = 2
    ∧ (processDrawCommands 0 emptyState
        [.addState (some "A") (some true) (some false),
         .addState (some "B") (some false) (some false),
         .addTransition (some "A") (some "B") (some "x"),
         .addTransition (some "A") (some "B") (some "x")]).edges.length = 1 := by
  refine ⟨reachable_tripleUnique h, ?_, by decide, by decide⟩
  intro now f t y sn tn hf ht hdup
  simp only [applyAction]
  split
  · rfl
  · rw [hf, ht]
    simp only [hdup, if_true]

/-- Witness for C5 at a concrete input: the scenario diagram is reachable
and its transition triples are pairwise distinct. -/
theorem c5_triple_unique_ai_path_witness :
    TripleUnique (processDrawCommands 0 emptyState
      [.addState (some "A") (some true) (some false),
       .addState (some "B") (some false) (some false),
       .addTransition (some "A") (some "B") (some "x"),
       .addTransition (some "A") (some "B") (some "x")]).edges :=
  (c5_triple_unique_ai_path _ (Reachable.step emptyState 0 _ Reachable.empty)).1

/-- C5 counterexample: a batch creates two parallel transitions
ai-1 → ai-2 with symbols "x" and "y"; editing the second one's symbol to "x"
through the edge-click handler — which performs no duplicate-triple check —
leaves two transitions with the identical `(source, target, symbol)`
triple. -/
theorem c5_counterexample :
    ¬ TripleUnique (onEdgeClick
        (processDrawCommands 0 emptyState
          [.addState (some "A") none none, .addState (some "B") none none,
           .addTransition (some "A") (some "B") (some "x"),
           .addTransition (some "A") (some "B") (some "y")]).edges
        "e-ai-1-ai-2-y-0" (some "x")) := by
  rw [TripleUnique]
  decide

end AITutor
